import Mathlib

/-!
Shallow embedding of `src/index.ts` of zungx/sx-community-data: the photo
resolver (`getPhotoCdn`, `listFilesInFolder`), the employee row mapper
(the mapping step of `getAllEmployees`), the master-data grouper
(`getMasterDataSource`), the filter utility `filterEmployee`, the secret-key
gate of the two endpoints (`validateSecretKey`, `employeeAPI`,
`masterDataAPI`) and the client fetch facade (`fetchApis`,
`handleResponse`).

JavaScript values that matter to the claims are modelled explicitly:
a cell read `row[i]` is `List.get? i : Option String` (with `none` for a
missing cell), `x || ''` is `Option.getD ""`, property assignment on a
plain object is an update of an association list, and an assignment of
`undefined` stores the dedicated `Value.vUndef`.  `String.prototype.split`
with a one-character separator and `String.prototype.trim` are re-implemented
structurally (`jsSplit`, `jsTrim`) so that every definition evaluates by
kernel reduction.
-/

namespace SX

/-- A value stored in a dynamically-keyed JavaScript object: a string, an
array of strings, or `undefined`. -/
inductive Value where
  | vStr : String → Value
  | vList : List String → Value
  | vUndef : Value
deriving DecidableEq, Repr

/-- The name-to-identifier photo lookup (`Map<string, string>`), as an
association list with at most one entry per key. -/
abbrev PhotoMap := List (String × String)

/-- `Map.prototype.set`: overwrite the entry of `k` in place, or append. -/
def mapSet (m : PhotoMap) (k v : String) : PhotoMap :=
  match m with
  | [] => [(k, v)]
  | (k0, v0) :: rest => if k0 = k then (k0, v) :: rest else (k0, v0) :: mapSet rest k v

/-- `Map.prototype.get`: the value stored under `k`, if any. -/
def mapGet (m : PhotoMap) (k : String) : Option String :=
  match m with
  | [] => none
  | (k0, v0) :: rest => if k0 = k then some v0 else mapGet rest k

/-- One file of the folder listing; `name` and `id` may each be absent. -/
structure DriveFile where
  name : Option String
  id : Option String

/-- JavaScript truthiness of a possibly-absent string: `none` for
`undefined`/`null` and for the empty string. -/
def truthyStr : Option String → Option String
  | none => none
  | some s => if s = "" then none else some s

/-- One file folded into the map (`res.data.files?.forEach` body,
src/index.ts:85-89): set the entry when both name and id are truthy,
otherwise skip the file. -/
def fileStep (m : PhotoMap) (f : DriveFile) : PhotoMap :=
  match truthyStr f.name, truthyStr f.id with
  | some n, some i => mapSet m n i
  | _, _ => m

/-- Embedding of `listFilesInFolder` (src/index.ts:77-96): fold the listing
into a map, skipping files whose name or id is missing or empty; a later
file with the same name overwrites an earlier one. -/
def listFilesInFolder (files : List DriveFile) : PhotoMap :=
  files.foldl fileStep []

/-- Embedding of `getPhotoCdn` (src/index.ts:72-75): look the key up in the
photo map and build `host/id`; an absent key, a missing entry or a falsy
(empty) stored id gives the empty string.  `host` stands for
`process.env.DRIVE_PHOTO_HOST`; the key is `Option`-valued because the call
sites pass a possibly-missing cell. -/
def getPhotoCdn (host : String) (photos : PhotoMap) (key : Option String) : String :=
  match key with
  | none => ""
  | some k =>
    match mapGet photos k with
    | none => ""
    | some pid => if pid = "" then "" else host ++ "/" ++ pid

/-- Helper for `jsSplit`: walk the characters, cutting at the separator. -/
def splitCharAux (c : Char) : List Char → List Char → List String
  | [], acc => [String.mk acc.reverse]
  | x :: xs, acc =>
    if x = c then String.mk acc.reverse :: splitCharAux c xs []
    else splitCharAux c xs (x :: acc)

/-- JavaScript `s.split(c)` for a one-character separator: always returns at
least one piece; the empty string splits to `[""]`. -/
def jsSplit (c : Char) (s : String) : List String :=
  splitCharAux c s.data []

/-- JavaScript `s.trim()`: drop whitespace from both ends. -/
def jsTrim (s : String) : String :=
  String.mk (((s.data.dropWhile Char.isWhitespace).reverse.dropWhile
    Char.isWhitespace).reverse)

/-- A dynamically-keyed employee record (the accumulator object of the
`headers.reduce` in `getAllEmployees`), as an association list. -/
abbrev Rec := List (String × Value)

/-- JavaScript property assignment `e[k] = v` on a plain object: overwrite
in place or append. -/
def recSet (e : Rec) (k : String) (v : Value) : Rec :=
  match e with
  | [] => [(k, v)]
  | (k0, v0) :: rest => if k0 = k then (k0, v) :: rest else (k0, v0) :: recSet rest k v

/-- Property read `e[k]` on the record, `none` when the key was never set. -/
def recGet (e : Rec) (k : String) : Option Value :=
  match e with
  | [] => none
  | (k0, v0) :: rest => if k0 = k then some v0 else recGet rest k

/-- Assignment of a possibly-undefined string: `undefined` is stored as
`Value.vUndef` (mirrors `employee['yearofbirth'] = year` where `year` may be
`undefined` after destructuring). -/
def optToValue : Option String → Value
  | some s => Value.vStr s
  | none => Value.vUndef

/-- One step of the `headers.reduce` of `getAllEmployees`
(src/index.ts:145-172): the switch on the header name, applied to record
`e` with header `header` at column `index` of data row `row`. -/
def applyHeader (host : String) (photos : PhotoMap) (row : List String)
    (e : Rec) (header : String) (index : Nat) : Rec :=
  if header = "photo" then
    recSet e header (Value.vStr (getPhotoCdn host photos (row.get? index)))
  else if header = "projects" ∨ header = "club" then
    recSet e header
      (match row.get? index with
       | some s => Value.vList ((jsSplit ',' s).map jsTrim)
       | none => Value.vList [])
  else if header = "dob" then
    recSet (recSet (recSet e
        "monthofbirth" (optToValue ((jsSplit '/' ((row.get? index).getD "")).get? 0)))
        "yearofbirth" (optToValue ((jsSplit '/' ((row.get? index).getD "")).get? 2)))
      header (Value.vStr ((row.get? index).getD ""))
  else if header = "date_joined" then
    recSet (recSet e
        "joiningyear" (optToValue ((jsSplit '/' ((row.get? index).getD "")).get? 2)))
      header (Value.vStr ((row.get? index).getD ""))
  else
    recSet e header (Value.vStr ((row.get? index).getD ""))

/-- The reduce over the header list, keeping the running column index. -/
def mapRowAux (host : String) (photos : PhotoMap) (row : List String) :
    Rec → List String → Nat → Rec
  | e, [], _ => e
  | e, h :: hs, i => mapRowAux host photos row (applyHeader host photos row e h i) hs (i + 1)

/-- One data row mapped to a record (`headers.reduce(..., {})`). -/
def mapRow (host : String) (photos : PhotoMap) (headers : List String)
    (row : List String) : Rec :=
  mapRowAux host photos row [] headers 0

/-- The mapping step of `getAllEmployees` (src/index.ts:144-173):
`dataRows.map(row => headers.reduce(...))`. -/
def mapRows (host : String) (photos : PhotoMap) (headers : List String)
    (dataRows : List (List String)) : List Rec :=
  dataRows.map (mapRow host photos headers)

/-- The keys the switch assigns when it handles header `h`: the header
itself, plus the derived fields for `dob` and `date_joined`. -/
def assignsOf (h : String) : List String :=
  if h = "dob" then ["monthofbirth", "yearofbirth", "dob"]
  else if h = "date_joined" then ["joiningyear", "date_joined"]
  else [h]

/-- The value the switch stores under header `h` itself for column `i` of
`row` (the derived `monthofbirth`/`yearofbirth`/`joiningyear` keys are
described separately). -/
def headerValue (host : String) (photos : PhotoMap) (row : List String)
    (h : String) (i : Nat) : Value :=
  if h = "photo" then Value.vStr (getPhotoCdn host photos (row.get? i))
  else if h = "projects" ∨ h = "club" then
    match row.get? i with
    | some s => Value.vList ((jsSplit ',' s).map jsTrim)
    | none => Value.vList []
  else Value.vStr ((row.get? i).getD "")

/-- A `category` entry (src/index.ts:9-13); `title` is `row[1]`, which may
be absent when the row is short. -/
structure Category where
  key : String
  title : Option String
  photo : String
deriving DecidableEq, Repr

/-- An entry of every other grouped list (src/index.ts:15-18). -/
structure SubCategory where
  title : String
  photo : String
deriving DecidableEq, Repr

/-- The eleven grouped lists (src/index.ts:20-32). -/
structure MasterData where
  category : List Category
  country : List SubCategory
  role : List SubCategory
  birthplace : List SubCategory
  yearofbirth : List SubCategory
  monthofbirth : List SubCategory
  project : List SubCategory
  club : List SubCategory
  gender : List SubCategory
  joiningyear : List SubCategory
  office : List SubCategory
deriving DecidableEq, Repr

/-- The initial `result` object of `getMasterDataSource`: all lists empty. -/
def emptyMasterData : MasterData :=
  ⟨[], [], [], [], [], [], [], [], [], [], []⟩

/-- Cell `i` of a row under JavaScript truthiness checks: a missing cell
behaves like the empty string (both are falsy). -/
def cell (r : List String) (i : Nat) : String :=
  (r.get? i).getD ""

/-- One iteration of the `rows.slice(2).forEach` of `getMasterDataSource`
(src/index.ts:226-238): each group appends one entry to its list when its
label column is truthy. -/
def mdStep (host : String) (photos : PhotoMap) (md : MasterData)
    (r : List String) : MasterData where
  category := md.category ++
    (if cell r 0 = "" then [] else
      [⟨cell r 0, r.get? 1, getPhotoCdn host photos (r.get? 2)⟩])
  country := md.country ++
    (if cell r 4 = "" then [] else [⟨cell r 4, getPhotoCdn host photos (r.get? 5)⟩])
  role := md.role ++
    (if cell r 7 = "" then [] else [⟨cell r 7, getPhotoCdn host photos (r.get? 8)⟩])
  birthplace := md.birthplace ++
    (if cell r 10 = "" then [] else [⟨cell r 10, getPhotoCdn host photos (r.get? 11)⟩])
  yearofbirth := md.yearofbirth ++
    (if cell r 13 = "" then [] else [⟨cell r 13, getPhotoCdn host photos (r.get? 14)⟩])
  monthofbirth := md.monthofbirth ++
    (if cell r 16 = "" then [] else [⟨cell r 16, getPhotoCdn host photos (r.get? 17)⟩])
  project := md.project ++
    (if cell r 19 = "" then [] else [⟨cell r 19, getPhotoCdn host photos (r.get? 20)⟩])
  club := md.club ++
    (if cell r 22 = "" then [] else [⟨cell r 22, getPhotoCdn host photos (r.get? 23)⟩])
  gender := md.gender ++
    (if cell r 25 = "" then [] else [⟨cell r 25, getPhotoCdn host photos (r.get? 26)⟩])
  joiningyear := md.joiningyear ++
    (if cell r 28 = "" then [] else [⟨cell r 28, getPhotoCdn host photos (r.get? 29)⟩])
  office := md.office ++
    (if cell r 31 = "" then [] else [⟨cell r 31, getPhotoCdn host photos (r.get? 32)⟩])

/-- The grouping core of `getMasterDataSource` (src/index.ts:220-240): a
grid of at most one row gives the empty result; otherwise the first two
rows are skipped and the rest folded through `mdStep`. -/
def getMasterDataCore (host : String) (photos : PhotoMap)
    (g : List (List String)) : MasterData :=
  if g.length ≤ 1 then emptyMasterData
  else (g.drop 2).foldl (mdStep host photos) emptyMasterData

/-- Specification-level value of the category list: the rows with a truthy
label column 0, in order, mapped to entries. -/
def catEntries (host : String) (photos : PhotoMap)
    (rows : List (List String)) : List Category :=
  (rows.filter (fun r => !(cell r 0 == ""))).map
    (fun r => ⟨cell r 0, r.get? 1, getPhotoCdn host photos (r.get? 2)⟩)

/-- Specification-level value of a sub-category list with label column `lc`
and photo column `pc`. -/
def subEntries (host : String) (photos : PhotoMap) (lc pc : Nat)
    (rows : List (List String)) : List SubCategory :=
  (rows.filter (fun r => !(cell r lc == ""))).map
    (fun r => ⟨cell r lc, getPhotoCdn host photos (r.get? pc)⟩)

/-- The `Employee` interface (src/index.ts:34-54). -/
structure Employee where
  id : String
  name : String
  email : String
  gender : String
  dob : String
  date_joined : String
  role : String
  phone : String
  country : String
  birthplace : String
  address : String
  projects : List String
  club : List String
  bio : String
  photo : String
  yearofbirth : String
  monthofbirth : String
  joiningyear : String
  short_name : String
deriving DecidableEq, Repr

/-- Dynamic field access `it[key]` on an `Employee`: the scalar fields as
strings, the two sequence fields as lists, anything else `undefined`. -/
def empGet (e : Employee) (k : String) : Value :=
  if k = "id" then Value.vStr e.id
  else if k = "name" then Value.vStr e.name
  else if k = "email" then Value.vStr e.email
  else if k = "gender" then Value.vStr e.gender
  else if k = "dob" then Value.vStr e.dob
  else if k = "date_joined" then Value.vStr e.date_joined
  else if k = "role" then Value.vStr e.role
  else if k = "phone" then Value.vStr e.phone
  else if k = "country" then Value.vStr e.country
  else if k = "birthplace" then Value.vStr e.birthplace
  else if k = "address" then Value.vStr e.address
  else if k = "projects" then Value.vList e.projects
  else if k = "club" then Value.vList e.club
  else if k = "bio" then Value.vStr e.bio
  else if k = "photo" then Value.vStr e.photo
  else if k = "yearofbirth" then Value.vStr e.yearofbirth
  else if k = "monthofbirth" then Value.vStr e.monthofbirth
  else if k = "joiningyear" then Value.vStr e.joiningyear
  else if k = "short_name" then Value.vStr e.short_name
  else Value.vUndef

/-- Embedding of `filterEmployee` (src/index.ts:252-261): element
containment for the two sequence fields, strict equality for the rest. -/
def filterEmployee (categoryKey filterValue : String)
    (apiEmployees : List Employee) : List Employee :=
  if categoryKey = "club" then
    apiEmployees.filter (fun it => it.club.contains filterValue)
  else if categoryKey = "projects" then
    apiEmployees.filter (fun it => it.projects.contains filterValue)
  else
    apiEmployees.filter (fun it => empGet it categoryKey == Value.vStr filterValue)

/-- The parts of an incoming request the secret check reads: the
`x-secret-key` header and the `x-secret-key` query parameter, each possibly
absent. -/
structure HttpRequest where
  headerSecret : Option String
  querySecret : Option String

/-- The environment configuration the endpoints read. -/
structure EnvConfig where
  apiSecretKey : Option String
  drivePhotoHost : String

/-- The secret the request supplies (src/index.ts:99):
`req.headers['x-secret-key'] ?? req.query['x-secret-key']` — the query
parameter is consulted only when the header is null/undefined. -/
def suppliedSecret (req : HttpRequest) : Option String :=
  match req.headerSecret with
  | some s => some s
  | none => req.querySecret

/-- A data-source call one of the endpoints can issue. -/
inductive DataCall where
  | driveList
  | sheetsGet
deriving DecidableEq, Repr

/-- The JSON body an endpoint responds with. -/
inductive ResponseBody where
  | employees : List Rec → ResponseBody
  | masterData : MasterData → ResponseBody
  | err : String → String → ResponseBody
deriving DecidableEq, Repr

/-- A sent response: status code and body. -/
structure ApiResponse where
  status : Nat
  body : ResponseBody
deriving DecidableEq, Repr

/-- The two external data sources as the request sees them: each call
either throws (`Except.error`) or returns; the sheet read may also return
no values at all (`response.data.values` undefined). -/
structure DataSource where
  driveFiles : Except Unit (List DriveFile)
  sheetValues : Except Unit (Option (List (List String)))

/-- Embedding of `getAllEmployees` (src/index.ts:125-178) over the abstract
data sources: the result (or a thrown error) paired with the data-source
calls actually issued, in order. -/
def getAllEmployeesM (env : EnvConfig) (ds : DataSource) :
    Except Unit (List Rec) × List DataCall :=
  match ds.driveFiles with
  | Except.error _ => (Except.error (), [DataCall.driveList])
  | Except.ok files =>
    match ds.sheetValues with
    | Except.error _ => (Except.error (), [DataCall.driveList, DataCall.sheetsGet])
    | Except.ok none => (Except.ok [], [DataCall.driveList, DataCall.sheetsGet])
    | Except.ok (some []) => (Except.ok [], [DataCall.driveList, DataCall.sheetsGet])
    | Except.ok (some (headers :: dataRows)) =>
      (Except.ok (mapRows env.drivePhotoHost (listFilesInFolder files) headers dataRows),
       [DataCall.driveList, DataCall.sheetsGet])

/-- Embedding of `getMasterDataSource` (src/index.ts:195-245) over the
abstract data sources. -/
def getMasterDataSourceM (env : EnvConfig) (ds : DataSource) :
    Except Unit MasterData × List DataCall :=
  match ds.driveFiles with
  | Except.error _ => (Except.error (), [DataCall.driveList])
  | Except.ok files =>
    match ds.sheetValues with
    | Except.error _ => (Except.error (), [DataCall.driveList, DataCall.sheetsGet])
    | Except.ok none => (Except.ok emptyMasterData, [DataCall.driveList, DataCall.sheetsGet])
    | Except.ok (some g) =>
      (Except.ok (getMasterDataCore env.drivePhotoHost (listFilesInFolder files) g),
       [DataCall.driveList, DataCall.sheetsGet])

/-- Embedding of `employeeAPI` (src/index.ts:110-123): the secret check
first (mismatch: 401 and an early return, before any data-source call),
then `getAllEmployees` with a 500 on a thrown error. -/
def employeeAPIM (req : HttpRequest) (env : EnvConfig) (ds : DataSource) :
    ApiResponse × List DataCall :=
  if suppliedSecret req = env.apiSecretKey then
    match getAllEmployeesM env ds with
    | (Except.ok emps, calls) => (⟨200, ResponseBody.employees emps⟩, calls)
    | (Except.error _, calls) =>
      (⟨500, ResponseBody.err "00001" "Internal Server Error"⟩, calls)
  else (⟨401, ResponseBody.err "unauthorized" "Invalid secret key"⟩, [])

/-- Embedding of `masterDataAPI` (src/index.ts:180-193). -/
def masterDataAPIM (req : HttpRequest) (env : EnvConfig) (ds : DataSource) :
    ApiResponse × List DataCall :=
  if suppliedSecret req = env.apiSecretKey then
    match getMasterDataSourceM env ds with
    | (Except.ok md, calls) => (⟨200, ResponseBody.masterData md⟩, calls)
    | (Except.error _, calls) =>
      (⟨500, ResponseBody.err "00002" "Internal Server Error"⟩, calls)
  else (⟨401, ResponseBody.err "unauthorized" "Invalid secret key"⟩, [])

/-- The structured error payload of a non-success response
(src/index.ts:263-266). -/
structure ApiErrorResponse where
  error_code : String
  error_message : String
deriving DecidableEq, Repr

/-- The outcome of one client-side `fetch`: the promise rejects (network
failure), or a response arrives with a status, an `ok` flag, a success
payload and an error payload. -/
inductive FetchResult (α : Type) where
  | reject : FetchResult α
  | response : Nat → Bool → α → ApiErrorResponse → FetchResult α

/-- Embedding of `handleResponse` (src/index.ts:296-309): a non-ok response
throws a message keyed on the status; an ok response returns its payload. -/
def handleResponse {α : Type} (status : Nat) (ok : Bool) (payload : α)
    (errBody : ApiErrorResponse) : Except String α :=
  if ok then Except.ok payload
  else if status = 401 then
    Except.error ("Unauthorized: " ++ errBody.error_message)
  else if status = 500 then
    Except.error ("Internal Server Error: " ++ errBody.error_message)
  else Except.error ("Error: " ++ errBody.error_message)

/-- Embedding of `fetchApis` (src/index.ts:268-294): `Promise.all` of the
two fetches (a rejection of either rejects the pair), then `handleResponse`
on each; any failure is caught and turned into `none`. -/
def fetchApis (er : FetchResult (List Rec)) (mr : FetchResult MasterData) :
    Option (List Rec × MasterData) :=
  match er, mr with
  | FetchResult.reject, _ => none
  | _, FetchResult.reject => none
  | FetchResult.response es eok ep ee, FetchResult.response ms mok mp me =>
    match handleResponse es eok ep ee with
    | Except.error _ => none
    | Except.ok emps =>
      match handleResponse ms mok mp me with
      | Except.error _ => none
      | Except.ok md => some (emps, md)

/-- The payload of a fetch outcome that succeeded (`ok` response), `none`
otherwise: the specification-level view `fetchApis` is proved to refine. -/
def okPayload {α : Type} : FetchResult α → Option α
  | FetchResult.response _ true p _ => some p
  | _ => none

/-! ## Record and map lemmas -/

theorem recGet_recSet_self (e : Rec) (k : String) (v : Value) :
    recGet (recSet e k v) k = some v := by
  induction e with
  | nil => simp [recSet, recGet]
  | cons p rest ih =>
    by_cases h : p.1 = k
    · simp [recSet, recGet, h]
    · simp [recSet, recGet, h, ih]

theorem recGet_recSet_ne (e : Rec) (k k2 : String) (v : Value) (h : ¬(k2 = k)) :
    recGet (recSet e k v) k2 = recGet e k2 := by
  induction e with
  | nil =>
    simp only [recSet, recGet]
    rw [if_neg (fun hk => h hk.symm)]
  | cons p rest ih =>
    by_cases hp : p.1 = k
    · simp only [recSet, if_pos hp, recGet]
      rw [if_neg (fun hk => h (hp ▸ hk).symm), if_neg (fun hk => h (hp ▸ hk).symm)]
    · simp only [recSet, if_neg hp, recGet]
      by_cases hq : p.1 = k2
      · rw [if_pos hq, if_pos hq]
      · rw [if_neg hq, if_neg hq, ih]

theorem recGet_recSet_isSome (e : Rec) (k k2 : String) (v : Value)
    (h : (recGet e k2).isSome = true) :
    (recGet (recSet e k v) k2).isSome = true := by
  by_cases hk : k2 = k
  · subst hk; rw [recGet_recSet_self]; rfl
  · rw [recGet_recSet_ne e k k2 v hk]; exact h

theorem mapGet_mapSet (m : PhotoMap) (k k2 v : String) :
    mapGet (mapSet m k v) k2 = if k2 = k then some v else mapGet m k2 := by
  induction m with
  | nil =>
    by_cases h : k2 = k
    · simp [mapSet, mapGet, h]
    · simp only [mapSet, mapGet]
      rw [if_neg (fun hk => h hk.symm), if_neg h]
  | cons p rest ih =>
    by_cases hp : p.1 = k
    · by_cases h : k2 = k
      · simp [mapSet, mapGet, hp, h]
      · simp only [mapSet, if_pos hp, mapGet]
        rw [if_neg (fun hk => h (hp ▸ hk).symm), if_neg h,
          if_neg (fun hk => h (hp ▸ hk).symm)]
    · simp only [mapSet, if_neg hp, mapGet]
      by_cases hq : p.1 = k2
      · have hk2 : ¬(k2 = k) := fun h2 => hp (hq.trans h2)
        rw [if_pos hq, if_neg hk2, if_pos hq]
      · rw [if_neg hq, ih]
        by_cases h : k2 = k
        · rw [if_pos h, if_pos h]
        · rw [if_neg h, if_neg h, if_neg hq]

/-! ## Photo lookup invariant -/

theorem truthyStr_ne (o : Option String) (s : String)
    (h : truthyStr o = some s) : ¬(s = "") := by
  match o with
  | none => simp [truthyStr] at h
  | some t =>
    simp only [truthyStr] at h
    by_cases ht : t = ""
    · rw [if_pos ht] at h; cases h
    · rw [if_neg ht] at h
      cases h
      exact ht

theorem fileStep_inv (m : PhotoMap) (f : DriveFile)
    (hm : ∀ k pid, mapGet m k = some pid → ¬(k = "") ∧ ¬(pid = ""))
    (k pid : String) (h : mapGet (fileStep m f) k = some pid) :
    ¬(k = "") ∧ ¬(pid = "") := by
  unfold fileStep at h
  match hn : truthyStr f.name, hi : truthyStr f.id with
  | some n, some i =>
    rw [hn, hi, mapGet_mapSet] at h
    by_cases hk : k = n
    · rw [if_pos hk] at h
      cases h
      exact ⟨hk ▸ truthyStr_ne _ _ hn, truthyStr_ne _ _ hi⟩
    · rw [if_neg hk] at h
      exact hm k pid h
  | some n, none => rw [hn, hi] at h; exact hm k pid h
  | none, some i => rw [hn, hi] at h; exact hm k pid h
  | none, none => rw [hn, hi] at h; exact hm k pid h

theorem foldl_fileStep_inv (files : List DriveFile) :
    ∀ (m : PhotoMap), (∀ k pid, mapGet m k = some pid → ¬(k = "") ∧ ¬(pid = "")) →
    ∀ k pid, mapGet (files.foldl fileStep m) k = some pid → ¬(k = "") ∧ ¬(pid = "") := by
  induction files with
  | nil => intro m hm k pid h; exact hm k pid h
  | cons f fs ih =>
    intro m hm k pid h
    rw [List.foldl_cons] at h
    exact ih (fileStep m f) (fun a b => fileStep_inv m f hm a b) k pid h

theorem listFiles_get_ne (files : List DriveFile) (k pid : String)
    (h : mapGet (listFilesInFolder files) k = some pid) :
    ¬(k = "") ∧ ¬(pid = "") := by
  unfold listFilesInFolder at h
  exact foldl_fileStep_inv files [] (by intro a b hab; simp [mapGet] at hab) k pid h

/-! ## Switch-step lemmas -/

theorem self_mem_assignsOf (h : String) : h ∈ assignsOf h := by
  unfold assignsOf
  split_ifs with h1 h2
  · simp [h1]
  · simp [h2]
  · simp

theorem mem_assignsOf (k h : String) (hk : k ∈ assignsOf h) :
    k = h ∨ (h = "dob" ∧ (k = "monthofbirth" ∨ k = "yearofbirth")) ∨
      (h = "date_joined" ∧ k = "joiningyear") := by
  unfold assignsOf at hk
  split_ifs at hk with h1 h2
  · subst h1
    simp only [List.mem_cons, List.mem_singleton] at hk
    rcases hk with h | h | h | h
    · exact Or.inr (Or.inl ⟨rfl, Or.inl h⟩)
    · exact Or.inr (Or.inl ⟨rfl, Or.inr h⟩)
    · exact Or.inl h
    · simp at h
  · subst h2
    simp only [List.mem_cons, List.mem_singleton] at hk
    rcases hk with h | h | h
    · exact Or.inr (Or.inr ⟨rfl, h⟩)
    · exact Or.inl h
    · simp at h
  · simp only [List.mem_singleton] at hk
    exact Or.inl hk

theorem applyHeader_get_self (host : String) (pl : PhotoMap) (row : List String)
    (e : Rec) (header : String) (i : Nat) :
    recGet (applyHeader host pl row e header i) header =
      some (headerValue host pl row header i) := by
  unfold applyHeader headerValue
  split_ifs <;> exact recGet_recSet_self _ _ _

theorem applyHeader_get_ne (host : String) (pl : PhotoMap) (row : List String)
    (e : Rec) (header : String) (i : Nat) (k : String)
    (hk : ¬ k ∈ assignsOf header) :
    recGet (applyHeader host pl row e header i) k = recGet e k := by
  have hkh : ¬(k = header) := fun h => hk (h ▸ self_mem_assignsOf header)
  unfold applyHeader
  split_ifs with h1 h2 h3 h4
  · exact recGet_recSet_ne _ _ _ _ hkh
  · exact recGet_recSet_ne _ _ _ _ hkh
  · have hmo : ¬(k = "monthofbirth") := fun h => hk (by simp [assignsOf, h3, h])
    have hyo : ¬(k = "yearofbirth") := fun h => hk (by simp [assignsOf, h3, h])
    rw [recGet_recSet_ne _ _ _ _ hkh, recGet_recSet_ne _ _ _ _ hyo,
      recGet_recSet_ne _ _ _ _ hmo]
  · have hjy : ¬(k = "joiningyear") := fun h => hk (by simp [assignsOf, h3, h4, h])
    rw [recGet_recSet_ne _ _ _ _ hkh, recGet_recSet_ne _ _ _ _ hjy]
  · exact recGet_recSet_ne _ _ _ _ hkh

theorem applyHeader_isSome (host : String) (pl : PhotoMap) (row : List String)
    (e : Rec) (header : String) (i : Nat) (k : String)
    (h : (recGet e k).isSome = true) :
    (recGet (applyHeader host pl row e header i) k).isSome = true := by
  unfold applyHeader
  split_ifs <;>
    (repeat apply recGet_recSet_isSome) <;> exact h

theorem applyHeader_dob_month (host : String) (pl : PhotoMap) (row : List String)
    (e : Rec) (i : Nat) :
    recGet (applyHeader host pl row e "dob" i) "monthofbirth" =
      some (optToValue ((jsSplit '/' ((row.get? i).getD "")).get? 0)) := by
  unfold applyHeader
  rw [if_neg (by decide), if_neg (by decide), if_pos rfl,
    recGet_recSet_ne _ _ _ _ (by decide), recGet_recSet_ne _ _ _ _ (by decide),
    recGet_recSet_self]

theorem applyHeader_dob_year (host : String) (pl : PhotoMap) (row : List String)
    (e : Rec) (i : Nat) :
    recGet (applyHeader host pl row e "dob" i) "yearofbirth" =
      some (optToValue ((jsSplit '/' ((row.get? i).getD "")).get? 2)) := by
  unfold applyHeader
  rw [if_neg (by decide), if_neg (by decide), if_pos rfl,
    recGet_recSet_ne _ _ _ _ (by decide), recGet_recSet_self]

theorem applyHeader_dj_year (host : String) (pl : PhotoMap) (row : List String)
    (e : Rec) (i : Nat) :
    recGet (applyHeader host pl row e "date_joined" i) "joiningyear" =
      some (optToValue ((jsSplit '/' ((row.get? i).getD "")).get? 2)) := by
  unfold applyHeader
  rw [if_neg (by decide), if_neg (by decide), if_neg (by decide), if_pos rfl,
    recGet_recSet_ne _ _ _ _ (by decide), recGet_recSet_self]

/-! ## Reduce lemmas for the row mapper -/

theorem mapRowAux_nil (host : String) (pl : PhotoMap) (row : List String)
    (e : Rec) (i : Nat) : mapRowAux host pl row e [] i = e := rfl

theorem mapRowAux_cons (host : String) (pl : PhotoMap) (row : List String)
    (e : Rec) (h0 : String) (hs : List String) (i : Nat) :
    mapRowAux host pl row e (h0 :: hs) i =
      mapRowAux host pl row (applyHeader host pl row e h0 i) hs (i + 1) := rfl

theorem mapRowAux_get_ne (host : String) (pl : PhotoMap) (row : List String)
    (hs : List String) :
    ∀ (e : Rec) (i : Nat) (k : String), (∀ h ∈ hs, ¬ k ∈ assignsOf h) →
      recGet (mapRowAux host pl row e hs i) k = recGet e k := by
  induction hs with
  | nil => intro e i k _; rfl
  | cons h0 hs ih =>
    intro e i k hall
    rw [mapRowAux_cons, ih _ _ _ (fun h hh => hall h (List.mem_cons_of_mem _ hh)),
      applyHeader_get_ne _ _ _ _ _ _ _ (hall h0 (List.mem_cons_self _ _))]

theorem mapRowAux_isSome (host : String) (pl : PhotoMap) (row : List String)
    (hs : List String) :
    ∀ (e : Rec) (i : Nat) (k : String), (recGet e k).isSome = true →
      (recGet (mapRowAux host pl row e hs i) k).isSome = true := by
  induction hs with
  | nil => intro e i k h; exact h
  | cons h0 hs ih =>
    intro e i k h
    rw [mapRowAux_cons]
    exact ih _ _ _ (applyHeader_isSome _ _ _ _ _ _ _ h)

theorem mapRowAux_mem_isSome (host : String) (pl : PhotoMap) (row : List String)
    (hs : List String) :
    ∀ (e : Rec) (i : Nat) (k : String), k ∈ hs →
      (recGet (mapRowAux host pl row e hs i) k).isSome = true := by
  induction hs with
  | nil => intro e i k h; simp at h
  | cons h0 hs ih =>
    intro e i k h
    rw [mapRowAux_cons]
    rcases List.mem_cons.mp h with h | h
    · subst h
      apply mapRowAux_isSome
      rw [applyHeader_get_self]
      rfl
    · exact ih _ _ _ h

theorem mapRowAux_get_of_mem (host : String) (pl : PhotoMap) (row : List String)
    (hs : List String) :
    ∀ (e : Rec) (i j : Nat) (h : String), hs.Nodup →
      ¬ "monthofbirth" ∈ hs → ¬ "yearofbirth" ∈ hs → ¬ "joiningyear" ∈ hs →
      hs.get? j = some h →
      recGet (mapRowAux host pl row e hs i) h =
        some (headerValue host pl row h (i + j)) := by
  induction hs with
  | nil => intro e i j h _ _ _ _ hget; simp at hget
  | cons h0 hs ih =>
    intro e i j h hnd hm hy hjy hget
    have hnotin : ¬ h0 ∈ hs := (List.nodup_cons.mp hnd).1
    match j with
    | 0 =>
      rw [List.get?_cons_zero] at hget
      cases hget
      rw [mapRowAux_cons, Nat.add_zero]
      rw [mapRowAux_get_ne]
      · exact applyHeader_get_self _ _ _ _ _ _
      · intro hh hmem hinf
        rcases mem_assignsOf _ _ hinf with heq | ⟨hdob, hc⟩ | ⟨hdj, hc⟩
        · exact hnotin (heq ▸ hmem)
        · rcases hc with hc | hc
          · exact hm (by rw [← hc]; exact List.mem_cons_self _ _)
          · exact hy (by rw [← hc]; exact List.mem_cons_self _ _)
        · exact hjy (by rw [← hc]; exact List.mem_cons_self _ _)
    | j + 1 =>
      rw [List.get?_cons_succ] at hget
      rw [mapRowAux_cons, show i + (j + 1) = (i + 1) + j from by omega]
      exact ih _ _ _ _ (List.nodup_cons.mp hnd).2
        (fun hc => hm (List.mem_cons_of_mem _ hc))
        (fun hc => hy (List.mem_cons_of_mem _ hc))
        (fun hc => hjy (List.mem_cons_of_mem _ hc)) hget

theorem mapRowAux_dob (host : String) (pl : PhotoMap) (row : List String)
    (hs : List String) :
    ∀ (e : Rec) (i j : Nat), hs.Nodup →
      ¬ "monthofbirth" ∈ hs → ¬ "yearofbirth" ∈ hs →
      hs.get? j = some "dob" →
      recGet (mapRowAux host pl row e hs i) "monthofbirth" =
        some (optToValue ((jsSplit '/' ((row.get? (i + j)).getD "")).get? 0)) ∧
      recGet (mapRowAux host pl row e hs i) "yearofbirth" =
        some (optToValue ((jsSplit '/' ((row.get? (i + j)).getD "")).get? 2)) := by
  induction hs with
  | nil => intro e i j _ _ _ hget; simp at hget
  | cons h0 hs ih =>
    intro e i j hnd hm hy hget
    have hnotin : ¬ h0 ∈ hs := (List.nodup_cons.mp hnd).1
    match j with
    | 0 =>
      rw [List.get?_cons_zero] at hget
      cases hget
      have huntouched : ∀ k2, k2 = "monthofbirth" ∨ k2 = "yearofbirth" →
          ∀ hh ∈ hs, ¬ k2 ∈ assignsOf hh := by
        intro k2 hk2 hh hmem hinf
        rcases mem_assignsOf _ _ hinf with heq | ⟨hdob, hc⟩ | ⟨hdj, hc⟩
        · rcases hk2 with hk2 | hk2
          · exact hm (by rw [← hk2, heq]; exact List.mem_cons_of_mem _ hmem)
          · exact hy (by rw [← hk2, heq]; exact List.mem_cons_of_mem _ hmem)
        · exact hnotin (hdob ▸ hmem)
        · rcases hk2 with hk2 | hk2 <;> rw [hk2] at hc <;> simp at hc
      rw [mapRowAux_cons, Nat.add_zero]
      constructor
      · rw [mapRowAux_get_ne _ _ _ _ _ _ _ (huntouched _ (Or.inl rfl))]
        exact applyHeader_dob_month _ _ _ _ _
      · rw [mapRowAux_get_ne _ _ _ _ _ _ _ (huntouched _ (Or.inr rfl))]
        exact applyHeader_dob_year _ _ _ _ _
    | j + 1 =>
      rw [List.get?_cons_succ] at hget
      rw [mapRowAux_cons, show i + (j + 1) = (i + 1) + j from by omega]
      exact ih _ _ _ (List.nodup_cons.mp hnd).2
        (fun hc => hm (List.mem_cons_of_mem _ hc))
        (fun hc => hy (List.mem_cons_of_mem _ hc)) hget

theorem mapRowAux_dj (host : String) (pl : PhotoMap) (row : List String)
    (hs : List String) :
    ∀ (e : Rec) (i j : Nat), hs.Nodup → ¬ "joiningyear" ∈ hs →
      hs.get? j = some "date_joined" →
      recGet (mapRowAux host pl row e hs i) "joiningyear" =
        some (optToValue ((jsSplit '/' ((row.get? (i + j)).getD "")).get? 2)) := by
  induction hs with
  | nil => intro e i j _ _ hget; simp at hget
  | cons h0 hs ih =>
    intro e i j hnd hjy hget
    have hnotin : ¬ h0 ∈ hs := (List.nodup_cons.mp hnd).1
    match j with
    | 0 =>
      rw [List.get?_cons_zero] at hget
      cases hget
      rw [mapRowAux_cons, Nat.add_zero]
      rw [mapRowAux_get_ne]
      · exact applyHeader_dj_year _ _ _ _ _
      · intro hh hmem hinf
        rcases mem_assignsOf _ _ hinf with heq | ⟨hdob, hc⟩ | ⟨hdj, hc⟩
        · exact hjy (by rw [heq]; exact List.mem_cons_of_mem _ hmem)
        · rcases hc with hc | hc <;> simp at hc
        · exact hnotin (hdj ▸ hmem)
    | j + 1 =>
      rw [List.get?_cons_succ] at hget
      rw [mapRowAux_cons, show i + (j + 1) = (i + 1) + j from by omega]
      exact ih _ _ _ (List.nodup_cons.mp hnd).2
        (fun hc => hjy (List.mem_cons_of_mem _ hc)) hget

theorem mapRow_get_of_mem (host : String) (pl : PhotoMap) (H : List String)
    (r : List String) (j : Nat) (h : String) (hnd : H.Nodup)
    (hm : ¬ "monthofbirth" ∈ H) (hy : ¬ "yearofbirth" ∈ H)
    (hjy : ¬ "joiningyear" ∈ H) (hget : H.get? j = some h) :
    recGet (mapRow host pl H r) h = some (headerValue host pl r h j) := by
  have := mapRowAux_get_of_mem host pl r H [] 0 j h hnd hm hy hjy hget
  rwa [Nat.zero_add] at this

theorem mapRow_mem_isSome (host : String) (pl : PhotoMap) (H : List String)
    (r : List String) (h : String) (hmem : h ∈ H) :
    (recGet (mapRow host pl H r) h).isSome = true :=
  mapRowAux_mem_isSome host pl r H [] 0 h hmem

theorem mapRow_dob (host : String) (pl : PhotoMap) (H : List String)
    (r : List String) (j : Nat) (hnd : H.Nodup)
    (hm : ¬ "monthofbirth" ∈ H) (hy : ¬ "yearofbirth" ∈ H)
    (hget : H.get? j = some "dob") :
    recGet (mapRow host pl H r) "monthofbirth" =
      some (optToValue ((jsSplit '/' ((r.get? j).getD "")).get? 0)) ∧
    recGet (mapRow host pl H r) "yearofbirth" =
      some (optToValue ((jsSplit '/' ((r.get? j).getD "")).get? 2)) := by
  have := mapRowAux_dob host pl r H [] 0 j hnd hm hy hget
  rwa [Nat.zero_add] at this

theorem mapRow_dj (host : String) (pl : PhotoMap) (H : List String)
    (r : List String) (j : Nat) (hnd : H.Nodup)
    (hjy : ¬ "joiningyear" ∈ H) (hget : H.get? j = some "date_joined") :
    recGet (mapRow host pl H r) "joiningyear" =
      some (optToValue ((jsSplit '/' ((r.get? j).getD "")).get? 2)) := by
  have := mapRowAux_dj host pl r H [] 0 j hnd hjy hget
  rwa [Nat.zero_add] at this

/-! ## Master-data fold lemmas -/

theorem guard_swap {β : Type} (s : String) (x : List β) :
    (if s = "" then ([] : List β) else x) = (if (!(s == "")) = true then x else []) := by
  by_cases h : s = "" <;> simp [h]

theorem foldl_mdStep_proj {β : Type} (host : String) (pl : PhotoMap)
    (proj : MasterData → List β) (p : List String → Bool) (f : List String → β)
    (hstep : ∀ md r, proj (mdStep host pl md r) =
      proj md ++ (if p r then [f r] else []))
    (rows : List (List String)) :
    ∀ acc : MasterData,
      proj (rows.foldl (mdStep host pl) acc) = proj acc ++ (rows.filter p).map f := by
  induction rows with
  | nil => intro acc; simp
  | cons r rs ih =>
    intro acc
    rw [List.foldl_cons, ih, hstep, List.filter_cons]
    cases hp : p r <;> simp [hp]

theorem mdFold_category (host : String) (pl : PhotoMap) (rows : List (List String))
    (acc : MasterData) :
    (rows.foldl (mdStep host pl) acc).category = acc.category ++ catEntries host pl rows := by
  unfold catEntries
  exact foldl_mdStep_proj host pl (fun md => md.category) _ _
    (fun md r => by simp only [mdStep]; rw [guard_swap]) rows acc

theorem mdFold_country (host : String) (pl : PhotoMap) (rows : List (List String))
    (acc : MasterData) :
    (rows.foldl (mdStep host pl) acc).country = acc.country ++ subEntries host pl 4 5 rows := by
  unfold subEntries
  exact foldl_mdStep_proj host pl (fun md => md.country) _ _
    (fun md r => by simp only [mdStep]; rw [guard_swap]) rows acc

theorem mdFold_role (host : String) (pl : PhotoMap) (rows : List (List String))
    (acc : MasterData) :
    (rows.foldl (mdStep host pl) acc).role = acc.role ++ subEntries host pl 7 8 rows := by
  unfold subEntries
  exact foldl_mdStep_proj host pl (fun md => md.role) _ _
    (fun md r => by simp only [mdStep]; rw [guard_swap]) rows acc

theorem mdFold_birthplace (host : String) (pl : PhotoMap) (rows : List (List String))
    (acc : MasterData) :
    (rows.foldl (mdStep host pl) acc).birthplace =
      acc.birthplace ++ subEntries host pl 10 11 rows := by
  unfold subEntries
  exact foldl_mdStep_proj host pl (fun md => md.birthplace) _ _
    (fun md r => by simp only [mdStep]; rw [guard_swap]) rows acc

theorem mdFold_yearofbirth (host : String) (pl : PhotoMap) (rows : List (List String))
    (acc : MasterData) :
    (rows.foldl (mdStep host pl) acc).yearofbirth =
      acc.yearofbirth ++ subEntries host pl 13 14 rows := by
  unfold subEntries
  exact foldl_mdStep_proj host pl (fun md => md.yearofbirth) _ _
    (fun md r => by simp only [mdStep]; rw [guard_swap]) rows acc

theorem mdFold_monthofbirth (host : String) (pl : PhotoMap) (rows : List (List String))
    (acc : MasterData) :
    (rows.foldl (mdStep host pl) acc).monthofbirth =
      acc.monthofbirth ++ subEntries host pl 16 17 rows := by
  unfold subEntries
  exact foldl_mdStep_proj host pl (fun md => md.monthofbirth) _ _
    (fun md r => by simp only [mdStep]; rw [guard_swap]) rows acc

theorem mdFold_project (host : String) (pl : PhotoMap) (rows : List (List String))
    (acc : MasterData) :
    (rows.foldl (mdStep host pl) acc).project = acc.project ++ subEntries host pl 19 20 rows := by
  unfold subEntries
  exact foldl_mdStep_proj host pl (fun md => md.project) _ _
    (fun md r => by simp only [mdStep]; rw [guard_swap]) rows acc

theorem mdFold_club (host : String) (pl : PhotoMap) (rows : List (List String))
    (acc : MasterData) :
    (rows.foldl (mdStep host pl) acc).club = acc.club ++ subEntries host pl 22 23 rows := by
  unfold subEntries
  exact foldl_mdStep_proj host pl (fun md => md.club) _ _
    (fun md r => by simp only [mdStep]; rw [guard_swap]) rows acc

theorem mdFold_gender (host : String) (pl : PhotoMap) (rows : List (List String))
    (acc : MasterData) :
    (rows.foldl (mdStep host pl) acc).gender = acc.gender ++ subEntries host pl 25 26 rows := by
  unfold subEntries
  exact foldl_mdStep_proj host pl (fun md => md.gender) _ _
    (fun md r => by simp only [mdStep]; rw [guard_swap]) rows acc

theorem mdFold_joiningyear (host : String) (pl : PhotoMap) (rows : List (List String))
    (acc : MasterData) :
    (rows.foldl (mdStep host pl) acc).joiningyear =
      acc.joiningyear ++ subEntries host pl 28 29 rows := by
  unfold subEntries
  exact foldl_mdStep_proj host pl (fun md => md.joiningyear) _ _
    (fun md r => by simp only [mdStep]; rw [guard_swap]) rows acc

theorem mdFold_office (host : String) (pl : PhotoMap) (rows : List (List String))
    (acc : MasterData) :
    (rows.foldl (mdStep host pl) acc).office = acc.office ++ subEntries host pl 31 32 rows := by
  unfold subEntries
  exact foldl_mdStep_proj host pl (fun md => md.office) _ _
    (fun md r => by simp only [mdStep]; rw [guard_swap]) rows acc

/-! ## Resolver and facade helper equations -/

theorem getPhotoCdn_some (host : String) (pl : PhotoMap) (k : String) :
    getPhotoCdn host pl (some k) =
      (match mapGet pl k with
       | none => ""
       | some pid => if pid = "" then "" else host ++ "/" ++ pid) := rfl

theorem handleResponse_true {α : Type} (status : Nat) (p : α)
    (e : ApiErrorResponse) : handleResponse status true p e = Except.ok p := rfl

theorem handleResponse_false {α : Type} (status : Nat) (p : α)
    (e : ApiErrorResponse) :
    ∃ msg, handleResponse status false p e = Except.error msg := by
  unfold handleResponse
  rw [if_neg (by decide)]
  by_cases h1 : status = 401
  · rw [if_pos h1]
    exact ⟨_, rfl⟩
  · rw [if_neg h1]
    by_cases h2 : status = 500
    · rw [if_pos h2]
      exact ⟨_, rfl⟩
    · rw [if_neg h2]
      exact ⟨_, rfl⟩

/-! ## Claim theorems -/

/-- C1: for every header row `H` (a well-formed one: no duplicate names and
none of the three derived field names), data rows `R` and photo lookup, the
mapping step of `getAllEmployees` produces exactly `|R|` records, record `j`
coming from input row `j` (so rows are never dropped, merged or reordered);
every record has a field for every name in `H`; and a missing cell defaults
to the empty string (for the two sequence-valued headers `projects`/`club`,
to the empty sequence). -/
theorem mapRows_shape (host : String) (pl : PhotoMap) (H : List String)
    (R : List (List String)) (hnd : H.Nodup) (hm : ¬ "monthofbirth" ∈ H)
    (hy : ¬ "yearofbirth" ∈ H) (hjy : ¬ "joiningyear" ∈ H) :
    (mapRows host pl H R).length = R.length ∧
    (∀ j, (mapRows host pl H R).get? j = (R.get? j).map (mapRow host pl H)) ∧
    (∀ r ∈ R, ∀ h ∈ H, (recGet (mapRow host pl H r) h).isSome = true) ∧
    (∀ r ∈ R, ∀ j h, H.get? j = some h → r.get? j = none →
      recGet (mapRow host pl H r) h =
        some (if h = "projects" ∨ h = "club" then Value.vList [] else Value.vStr "")) := by
  refine ⟨List.length_map _ _, fun j => List.get?_map _ _ _, ?_, ?_⟩
  · intro r _ h hmem
    exact mapRow_mem_isSome host pl H r h hmem
  · intro r _ j h hget hcell
    rw [mapRow_get_of_mem host pl H r j h hnd hm hy hjy hget]
    unfold headerValue
    rw [hcell]
    by_cases h2 : h = "projects" ∨ h = "club"
    · have h1 : ¬ h = "photo" := by rcases h2 with h2 | h2 <;> subst h2 <;> decide
      rw [if_neg h1, if_pos h2, if_pos h2]
    · rw [if_neg h2]
      by_cases h1 : h = "photo"
      · rw [if_pos h1, if_neg h2]
        rfl
      · rw [if_neg h1, if_neg h2]
        rfl

/-- Witness for C1 at a concrete input: two data rows with headers
`["id", "projects"]`, the first row fully missing. -/
theorem mapRows_shape_witness :
    (mapRows "H" [] ["id", "projects"] [[], ["7"]]).length = 2 ∧
    recGet (mapRow "H" [] ["id", "projects"] []) "projects" = some (Value.vList []) ∧
    recGet (mapRow "H" [] ["id", "projects"] []) "id" = some (Value.vStr "") := by
  have h := mapRows_shape "H" [] ["id", "projects"] [[], ["7"]]
    (by decide) (by decide) (by decide) (by decide)
  refine ⟨h.1, ?_, ?_⟩
  · have h2 := h.2.2.2 [] (by simp) 1 "projects" rfl rfl
    rw [h2]; decide
  · have h2 := h.2.2.2 [] (by simp) 0 "id" rfl rfl
    rw [h2]; decide

/-- C2 counterexample: for the data row whose `dob` cell is `"19900520"`
(a value with no `/` separators), the record stores the whole cell as
`monthofbirth` and the undefined value as `yearofbirth`, so the claimed
pair of empty strings is refuted at this input. -/
theorem dob_malformed_cex :
    recGet (mapRow "H" [] ["dob"] ["19900520"]) "monthofbirth" =
      some (Value.vStr "19900520") ∧
    recGet (mapRow "H" [] ["dob"] ["19900520"]) "yearofbirth" = some Value.vUndef ∧
    ¬ (recGet (mapRow "H" [] ["dob"] ["19900520"]) "monthofbirth" =
         some (Value.vStr "") ∧
       recGet (mapRow "H" [] ["dob"] ["19900520"]) "yearofbirth" =
         some (Value.vStr "")) := by
  decide

/-- C2 amended: for every data row whose `dob` cell is absent or contains no
`/` separators, the record has `monthofbirth` equal to the raw cell value
(the empty string when the cell is absent) and `yearofbirth` set to the
undefined value, not the empty string; likewise `joiningyear` is the
undefined value when `date_joined` is absent or has no separators.  No error
is raised (the mapper is a total function). -/
theorem dob_malformed_amended (host : String) (pl : PhotoMap) (H : List String)
    (r : List String) (i j : Nat) (hnd : H.Nodup) (hm : ¬ "monthofbirth" ∈ H)
    (hy : ¬ "yearofbirth" ∈ H) (hjy : ¬ "joiningyear" ∈ H)
    (hdob : H.get? i = some "dob") (hdj : H.get? j = some "date_joined")
    (hnosep : jsSplit '/' ((r.get? i).getD "") = [(r.get? i).getD ""])
    (hnosep2 : jsSplit '/' ((r.get? j).getD "") = [(r.get? j).getD ""]) :
    recGet (mapRow host pl H r) "monthofbirth" =
      some (Value.vStr ((r.get? i).getD "")) ∧
    recGet (mapRow host pl H r) "yearofbirth" = some Value.vUndef ∧
    recGet (mapRow host pl H r) "joiningyear" = some Value.vUndef := by
  obtain ⟨h1, h2⟩ := mapRow_dob host pl H r i hnd hm hy hdob
  have h3 := mapRow_dj host pl H r j hnd hjy hdj
  rw [hnosep] at h1 h2
  rw [hnosep2] at h3
  exact ⟨h1, h2, h3⟩

/-- Witness for C2's amended statement: `dob` cell `"19900520"` (no
separators), `date_joined` cell absent. -/
theorem dob_malformed_amended_witness :
    recGet (mapRow "H" [] ["dob", "date_joined"] ["19900520"]) "monthofbirth" =
      some (Value.vStr "19900520") ∧
    recGet (mapRow "H" [] ["dob", "date_joined"] ["19900520"]) "yearofbirth" =
      some Value.vUndef ∧
    recGet (mapRow "H" [] ["dob", "date_joined"] ["19900520"]) "joiningyear" =
      some Value.vUndef := by
  have h := dob_malformed_amended "H" [] ["dob", "date_joined"] ["19900520"] 0 1
    (by decide) (by decide) (by decide) (by decide) rfl rfl (by decide) (by decide)
  exact h

/-- C3 counterexample: a present but empty `projects` cell yields the
one-element sequence `[""]`, not the empty sequence the claim states. -/
theorem projects_empty_cell_cex :
    recGet (mapRow "H" [] ["projects"] [""]) "projects" =
      some (Value.vList [""]) ∧
    ¬ recGet (mapRow "H" [] ["projects"] [""]) "projects" =
      some (Value.vList []) := by
  decide

/-- C3 amended: for every data row, the `projects` and `club` fields equal
the cell value split on `,` with each piece trimmed when the cell is
present — so the present-but-empty cell yields `[""]` — and the empty
sequence only when the cell is absent. -/
theorem projects_club_split_amended (host : String) (pl : PhotoMap)
    (H : List String) (r : List String) (j : Nat) (h : String)
    (hnd : H.Nodup) (hm : ¬ "monthofbirth" ∈ H) (hy : ¬ "yearofbirth" ∈ H)
    (hjy : ¬ "joiningyear" ∈ H) (hget : H.get? j = some h)
    (hpc : h = "projects" ∨ h = "club") :
    recGet (mapRow host pl H r) h =
      some (match r.get? j with
            | some s => Value.vList ((jsSplit ',' s).map jsTrim)
            | none => Value.vList []) := by
  rw [mapRow_get_of_mem host pl H r j h hnd hm hy hjy hget]
  unfold headerValue
  have h1 : ¬ h = "photo" := by rcases hpc with h2 | h2 <;> subst h2 <;> decide
  rw [if_neg h1, if_pos hpc]

/-- Witness for C3's amended statement: the spec's own example cell
`"A, B,C"` yields `["A","B","C"]`, and an absent cell yields `[]`. -/
theorem projects_club_split_witness :
    recGet (mapRow "H" [] ["projects"] ["A, B,C"]) "projects" =
      some (Value.vList ["A", "B", "C"]) ∧
    recGet (mapRow "H" [] ["club"] []) "club" = some (Value.vList []) := by
  constructor
  · have h := projects_club_split_amended "H" [] ["projects"] ["A, B,C"] 0 "projects"
      (by decide) (by decide) (by decide) (by decide) rfl (Or.inl rfl)
    rw [h]; decide
  · have h := projects_club_split_amended "H" [] ["club"] [] 0 "club"
      (by decide) (by decide) (by decide) (by decide) rfl (Or.inr rfl)
    rw [h]
    decide

/-- C4: for every lookup built by `listFilesInFolder` (which skips entries
with a missing or empty name or id), `getPhotoCdn` returns the empty string
when the key is the empty string, when the key is absent from the lookup,
or when the lookup is empty; and when the key is present it returns the
configured host, a `/`, and the stored identifier. -/
theorem getPhotoCdn_spec (host k pid : String) (files : List DriveFile) :
    getPhotoCdn host (listFilesInFolder files) (some "") = "" ∧
    getPhotoCdn host ([] : PhotoMap) (some k) = "" ∧
    (mapGet (listFilesInFolder files) k = none →
      getPhotoCdn host (listFilesInFolder files) (some k) = "") ∧
    (mapGet (listFilesInFolder files) k = some pid →
      getPhotoCdn host (listFilesInFolder files) (some k) = host ++ "/" ++ pid) := by
  refine ⟨?_, rfl, ?_, ?_⟩
  · cases hm : mapGet (listFilesInFolder files) "" with
    | none => rw [getPhotoCdn_some, hm]
    | some pid0 => exact absurd rfl (listFiles_get_ne files "" pid0 hm).1
  · intro hnone
    rw [getPhotoCdn_some, hnone]
  · intro hsome
    rw [getPhotoCdn_some, hsome]
    show (if pid = "" then "" else host ++ "/" ++ pid) = host ++ "/" ++ pid
    rw [if_neg (listFiles_get_ne files k pid hsome).2]

/-- C5: on a raw grid with at most one row (the empty grid included), the
grouping core of `getMasterDataSource` returns all eleven category lists
empty and raises no error (it is a total function). -/
theorem masterData_small_grid (host : String) (pl : PhotoMap)
    (g : List (List String)) (hlen : g.length ≤ 1) :
    (getMasterDataCore host pl g).category = [] ∧
    (getMasterDataCore host pl g).country = [] ∧
    (getMasterDataCore host pl g).role = [] ∧
    (getMasterDataCore host pl g).birthplace = [] ∧
    (getMasterDataCore host pl g).yearofbirth = [] ∧
    (getMasterDataCore host pl g).monthofbirth = [] ∧
    (getMasterDataCore host pl g).project = [] ∧
    (getMasterDataCore host pl g).club = [] ∧
    (getMasterDataCore host pl g).gender = [] ∧
    (getMasterDataCore host pl g).joiningyear = [] ∧
    (getMasterDataCore host pl g).office = [] := by
  unfold getMasterDataCore
  rw [if_pos hlen]
  exact ⟨rfl, rfl, rfl, rfl, rfl, rfl, rfl, rfl, rfl, rfl, rfl⟩

/-- Witness for C5 at a concrete one-row grid. -/
theorem masterData_small_grid_witness :
    (getMasterDataCore "H" [] [["x", "y", "z"]]).category = [] ∧
    (getMasterDataCore "H" [] [["x", "y", "z"]]).country = [] ∧
    (getMasterDataCore "H" [] [["x", "y", "z"]]).role = [] ∧
    (getMasterDataCore "H" [] [["x", "y", "z"]]).birthplace = [] ∧
    (getMasterDataCore "H" [] [["x", "y", "z"]]).yearofbirth = [] ∧
    (getMasterDataCore "H" [] [["x", "y", "z"]]).monthofbirth = [] ∧
    (getMasterDataCore "H" [] [["x", "y", "z"]]).project = [] ∧
    (getMasterDataCore "H" [] [["x", "y", "z"]]).club = [] ∧
    (getMasterDataCore "H" [] [["x", "y", "z"]]).gender = [] ∧
    (getMasterDataCore "H" [] [["x", "y", "z"]]).joiningyear = [] ∧
    (getMasterDataCore "H" [] [["x", "y", "z"]]).office = [] :=
  masterData_small_grid "H" [] [["x", "y", "z"]] (by decide)

/-- C6: for every grid, each of the eleven column groups contributes, for
each row past the first two, exactly one entry to its list when its label
column is non-empty and none when it is empty, independently of the other
groups: every list equals the rows with non-empty label mapped to entries
in row order (`catEntries`/`subEntries` are the filter-then-map
specifications, at the fixed column offsets of the source). -/
theorem masterData_groups (host : String) (pl : PhotoMap) (g : List (List String)) :
    (getMasterDataCore host pl g).category = catEntries host pl (g.drop 2) ∧
    (getMasterDataCore host pl g).country = subEntries host pl 4 5 (g.drop 2) ∧
    (getMasterDataCore host pl g).role = subEntries host pl 7 8 (g.drop 2) ∧
    (getMasterDataCore host pl g).birthplace = subEntries host pl 10 11 (g.drop 2) ∧
    (getMasterDataCore host pl g).yearofbirth = subEntries host pl 13 14 (g.drop 2) ∧
    (getMasterDataCore host pl g).monthofbirth = subEntries host pl 16 17 (g.drop 2) ∧
    (getMasterDataCore host pl g).project = subEntries host pl 19 20 (g.drop 2) ∧
    (getMasterDataCore host pl g).club = subEntries host pl 22 23 (g.drop 2) ∧
    (getMasterDataCore host pl g).gender = subEntries host pl 25 26 (g.drop 2) ∧
    (getMasterDataCore host pl g).joiningyear = subEntries host pl 28 29 (g.drop 2) ∧
    (getMasterDataCore host pl g).office = subEntries host pl 31 32 (g.drop 2) := by
  unfold getMasterDataCore
  by_cases hlen : g.length ≤ 1
  · have hdrop : g.drop 2 = [] := List.drop_eq_nil_of_le (le_trans hlen (by omega))
    rw [if_pos hlen, hdrop]
    exact ⟨rfl, rfl, rfl, rfl, rfl, rfl, rfl, rfl, rfl, rfl, rfl⟩
  · rw [if_neg hlen]
    exact ⟨mdFold_category host pl (g.drop 2) emptyMasterData,
      mdFold_country host pl (g.drop 2) emptyMasterData,
      mdFold_role host pl (g.drop 2) emptyMasterData,
      mdFold_birthplace host pl (g.drop 2) emptyMasterData,
      mdFold_yearofbirth host pl (g.drop 2) emptyMasterData,
      mdFold_monthofbirth host pl (g.drop 2) emptyMasterData,
      mdFold_project host pl (g.drop 2) emptyMasterData,
      mdFold_club host pl (g.drop 2) emptyMasterData,
      mdFold_gender host pl (g.drop 2) emptyMasterData,
      mdFold_joiningyear host pl (g.drop 2) emptyMasterData,
      mdFold_office host pl (g.drop 2) emptyMasterData⟩

/-- C7: `filterEmployee` keeps exactly the matching records: a record is in
the output precisely when it is an input record and, for the `projects` and
`club` fields, its sequence field contains the value as an exact element,
and for every other field name its scalar field (dynamic access) equals the
value under case-sensitive string equality. -/
theorem filterEmployee_spec (key v : String) (es : List Employee) (e : Employee) :
    e ∈ filterEmployee key v es ↔
      e ∈ es ∧
        ((key = "club" ∧ e.club.contains v = true) ∨
         (key = "projects" ∧ e.projects.contains v = true) ∨
         (¬ key = "club" ∧ ¬ key = "projects" ∧ empGet e key = Value.vStr v)) := by
  unfold filterEmployee
  by_cases h1 : key = "club"
  · rw [if_pos h1]
    subst h1
    simp [List.mem_filter]
  · rw [if_neg h1]
    by_cases h2 : key = "projects"
    · rw [if_pos h2]
      subst h2
      simp [List.mem_filter]
    · rw [if_neg h2]
      simp [List.mem_filter, h1, h2]

/-- Shared helper: a request whose supplied secret does not match the
configured one is answered 401 with the fixed payload by both endpoints,
with no data-source call issued. -/
theorem apis_reject (req : HttpRequest) (env : EnvConfig) (ds : DataSource)
    (h : ¬ suppliedSecret req = env.apiSecretKey) :
    employeeAPIM req env ds =
      (⟨401, ResponseBody.err "unauthorized" "Invalid secret key"⟩, []) ∧
    masterDataAPIM req env ds =
      (⟨401, ResponseBody.err "unauthorized" "Invalid secret key"⟩, []) := by
  unfold employeeAPIM masterDataAPIM
  rw [if_neg h, if_neg h]
  exact ⟨rfl, rfl⟩

/-- C8: for every request whose supplied secret does not match the
configured secret, both `employeeAPI` and `masterDataAPI` respond 401 with
exactly `{error_code: "unauthorized", error_message: "Invalid secret key"}`
and issue no data-source call (neither the folder listing nor the
spreadsheet read). -/
theorem unauthorized_no_calls (req : HttpRequest) (env : EnvConfig)
    (ds : DataSource) (h : ¬ suppliedSecret req = env.apiSecretKey) :
    employeeAPIM req env ds =
      (⟨401, ResponseBody.err "unauthorized" "Invalid secret key"⟩, []) ∧
    masterDataAPIM req env ds =
      (⟨401, ResponseBody.err "unauthorized" "Invalid secret key"⟩, []) :=
  apis_reject req env ds h

/-- Witness for C8: a concrete mismatched request against a configured
secret, with live data sources that are never consulted. -/
theorem unauthorized_no_calls_witness :
    employeeAPIM ⟨some "bad", none⟩ ⟨some "secret", "H"⟩
        ⟨Except.ok [], Except.ok (some [["a"]])⟩ =
      (⟨401, ResponseBody.err "unauthorized" "Invalid secret key"⟩, []) ∧
    masterDataAPIM ⟨some "bad", none⟩ ⟨some "secret", "H"⟩
        ⟨Except.ok [], Except.ok (some [["a"]])⟩ =
      (⟨401, ResponseBody.err "unauthorized" "Invalid secret key"⟩, []) :=
  unauthorized_no_calls ⟨some "bad", none⟩ ⟨some "secret", "H"⟩
    ⟨Except.ok [], Except.ok (some [["a"]])⟩ (by decide)

/-- C9: the client facade returns the pair of payloads exactly when both
responses are successful, and `none` (never a partial pair, never a raised
failure — it is a total function) when either fetch rejects or either
response is non-successful. -/
theorem fetchApis_spec (er : FetchResult (List Rec)) (mr : FetchResult MasterData) :
    fetchApis er mr =
      (okPayload er).bind (fun a => (okPayload mr).map (fun b => (a, b))) ∧
    (fetchApis er mr = none ↔ okPayload er = none ∨ okPayload mr = none) := by
  have heq : fetchApis er mr =
      (okPayload er).bind (fun a => (okPayload mr).map (fun b => (a, b))) := by
    cases er with
    | reject => cases mr <;> rfl
    | response es eok ep ee =>
      cases mr with
      | reject => cases eok <;> rfl
      | response ms mok mp me =>
        cases eok with
        | false =>
          obtain ⟨msg, hmsg⟩ := handleResponse_false es ep ee
          simp only [fetchApis, hmsg, okPayload]
          rfl
        | true =>
          cases mok with
          | false =>
            obtain ⟨msg, hmsg⟩ := handleResponse_false ms mp me
            simp only [fetchApis, handleResponse_true, hmsg, okPayload]
            rfl
          | true => rfl
  refine ⟨heq, ?_⟩
  rw [heq]
  cases hoe : okPayload er <;> cases hom : okPayload mr <;> simp

/-- C10: the query parameter is consulted only when the `x-secret-key`
header is absent: a request carrying a present but non-matching header is
rejected 401 by both endpoints (with no data-source call) even though its
query parameter equals the configured secret. -/
theorem header_precedence (s q host : String) (ds : DataSource)
    (hne : ¬ s = q) :
    employeeAPIM ⟨some s, some q⟩ ⟨some q, host⟩ ds =
      (⟨401, ResponseBody.err "unauthorized" "Invalid secret key"⟩, []) ∧
    masterDataAPIM ⟨some s, some q⟩ ⟨some q, host⟩ ds =
      (⟨401, ResponseBody.err "unauthorized" "Invalid secret key"⟩, []) := by
  apply apis_reject
  unfold suppliedSecret
  intro hc
  exact hne (Option.some_injective String hc)

/-- Witness for C10: header `"wrong"`, query equal to the configured
secret `"secret"`; both endpoints still answer 401 without data calls. -/
theorem header_precedence_witness :
    employeeAPIM ⟨some "wrong", some "secret"⟩ ⟨some "secret", "H"⟩
        ⟨Except.ok [], Except.ok (some [["a"]])⟩ =
      (⟨401, ResponseBody.err "unauthorized" "Invalid secret key"⟩, []) ∧
    masterDataAPIM ⟨some "wrong", some "secret"⟩ ⟨some "secret", "H"⟩
        ⟨Except.ok [], Except.ok (some [["a"]])⟩ =
      (⟨401, ResponseBody.err "unauthorized" "Invalid secret key"⟩, []) :=
  header_precedence "wrong" "secret" "H"
    ⟨Except.ok [], Except.ok (some [["a"]])⟩ (by decide)

end SX
